import Mathlib

/-!
# Verification of the `bounds.py` bounding-box library

Shallow embedding of `src/bounds.py` (Inkscape pybounds) over exact real
arithmetic.  Python floats are modelled as `ℝ`; a Python statement that would
raise an exception (`ZeroDivisionError`, `IndexError`, an explicit `raise`) is
modelled with `Except PyErr`.  Each definition mirrors the corresponding
Python function; theorems at the end settle the specification claims.
-/

open scoped Classical

/-- A point, passed around as a pair `(x, y)` exactly as in the Python code. -/
abbrev Point : Type := ℝ × ℝ

/-- Errors a Python execution of the embedded code can raise. -/
inductive PyErr : Type
  /-- `ZeroDivisionError`: a division whose denominator is zero. -/
  | zeroDivision : PyErr
  /-- `IndexError`: indexing into a too-short sequence (e.g. `parsed[0]`). -/
  | indexError : PyErr
  /-- The explicit `raise Exception('Unknown path segment type ...')`. -/
  | unknownSegment : PyErr
deriving DecidableEq

/-- The `BoundingBox` class: four edges of an axis-aligned box. -/
structure BoundingBox : Type where
  left : ℝ
  right : ℝ
  bottom : ℝ
  top : ℝ

/-- `BoundingBox.__init__`: the constructor picks the lower of the two
x-values for the left edge, the higher for the right, and likewise the lower
y-value for the bottom and the higher for the top. -/
noncomputable def mkBox (x0 x1 y0 y1 : ℝ) : BoundingBox :=
  ⟨min x0 x1, max x0 x1, min y0 y1, max y0 y1⟩

/-- `BoundingBox.contains`: `False` when the point lies outside either axis
range, `True` otherwise. -/
def BoundingBox.contains (b : BoundingBox) (p : Point) : Prop :=
  ¬(p.1 < b.left ∨ p.1 > b.right) ∧ ¬(p.2 < b.bottom ∨ p.2 > b.top)

/-- `BoundingBox.contains_x`. -/
def BoundingBox.contains_x (b : BoundingBox) (x : ℝ) : Prop :=
  ¬(x < b.left ∨ x > b.right)

/-- `BoundingBox.contains_y`. -/
def BoundingBox.contains_y (b : BoundingBox) (y : ℝ) : Prop :=
  ¬(y < b.bottom ∨ y > b.top)

/-- `BoundingBox.combine`: the method mutates `self` by a per-axis min/max
merge and, having no `return` statement, evaluates to Python `None`.  The
first component is the updated `self`, the second the Python return value. -/
noncomputable def BoundingBox.combine (b other : BoundingBox) :
    BoundingBox × Option BoundingBox :=
  (⟨min b.left other.left, max b.right other.right,
    min b.bottom other.bottom, max b.top other.top⟩, none)

/-- `BoundingBox.extend`: grow the box to include the given point. -/
noncomputable def BoundingBox.extend (b : BoundingBox) (p : Point) : BoundingBox :=
  ⟨min b.left p.1, max b.right p.1, min b.bottom p.2, max b.top p.2⟩

/-- `BoundingBox.extend_x`: grow the x-range to include the given value. -/
noncomputable def BoundingBox.extend_x (b : BoundingBox) (x : ℝ) : BoundingBox :=
  ⟨min b.left x, max b.right x, b.bottom, b.top⟩

/-- `BoundingBox.extend_y`: grow the y-range to include the given value. -/
noncomputable def BoundingBox.extend_y (b : BoundingBox) (y : ℝ) : BoundingBox :=
  ⟨b.left, b.right, min b.bottom y, max b.top y⟩

/-- The normalization invariant of a bounding box. -/
def BoundingBox.Normalized (b : BoundingBox) : Prop :=
  b.left ≤ b.right ∧ b.bottom ≤ b.top

/-- The seeding step shared by the three segment functions: if no box was
supplied create one from the segment endpoints, otherwise extend the supplied
box with both endpoints. -/
noncomputable def seedBox (p q : Point) : Option BoundingBox → BoundingBox
  | none => mkBox p.1 q.1 p.2 q.2
  | some b => (b.extend p).extend q

/-- The quadratic Bézier basis `p0*(1-t)^2 + p1*2*(1-t)*t + p2*t^2` used at
lines 182 and 192 of `bounds.py`. -/
def qBezier (p0 p1 p2 t : ℝ) : ℝ :=
  p0 * (1 - t) ^ 2 + p1 * 2 * (1 - t) * t + p2 * t ^ 2

/-- One axis of `quadratic_bounding_box` (lines 172-193): the convex-hull
short-circuit `box.contains_x(p1)`, then the unguarded Python division
`t = q0 / (q0 - q1)` (a zero denominator would raise `ZeroDivisionError`),
then the interior-parameter test and the `extend_x` call. -/
noncomputable def quadAxis (p0 p1 p2 lo hi : ℝ) : Except PyErr (ℝ × ℝ) :=
  if ¬(p1 < lo ∨ p1 > hi) then Except.ok (lo, hi)
  else if (p1 - p0) - (p2 - p1) = 0 then Except.error PyErr.zeroDivision
  else if 0 < (p1 - p0) / ((p1 - p0) - (p2 - p1)) ∧
          (p1 - p0) / ((p1 - p0) - (p2 - p1)) < 1 then
    Except.ok
      (min lo (qBezier p0 p1 p2 ((p1 - p0) / ((p1 - p0) - (p2 - p1)))),
       max hi (qBezier p0 p1 p2 ((p1 - p0) / ((p1 - p0) - (p2 - p1)))))
  else Except.ok (lo, hi)

/-- `quadratic_bounding_box` (lines 140-196): seed with the endpoints, then
run the extremum search on each axis; a Python exception on the x axis
propagates before the y axis runs. -/
noncomputable def quadratic_bounding_box (p0 p1 p2 : Point)
    (box : Option BoundingBox) : Except PyErr BoundingBox :=
  match quadAxis p0.1 p1.1 p2.1 (seedBox p0 p2 box).left (seedBox p0 p2 box).right,
        quadAxis p0.2 p1.2 p2.2 (seedBox p0 p2 box).bottom (seedBox p0 p2 box).top with
  | Except.error e, _ => Except.error e
  | Except.ok _, Except.error e => Except.error e
  | Except.ok (l, r), Except.ok (bo, tp) => Except.ok ⟨l, r, bo, tp⟩

/-- The cubic Bézier basis
`p0*(1-t)^3 + 3*p1*t*(1-t)^2 + 3*p2*(1-t)*t^2 + p3*t^3` (line 250). -/
def cBezier (p0 p1 p2 p3 t : ℝ) : ℝ :=
  p0 * (1 - t) ^ 3 + 3 * p1 * t * (1 - t) ^ 2 + 3 * p2 * (1 - t) * t ^ 2 + p3 * t ^ 3

/-- The inner helper `extrema_values` of `cubic_bounding_box` (lines 236-272).
The coefficient `a` is the doubled leading coefficient (the source comment
notes "a is actually 2a"), and the discriminant is accordingly `b^2 - 2*a*c`.
Python computes `ba = -b / a` (line 253) as soon as the discriminant is
non-negative, so `a == 0` raises `ZeroDivisionError` there: the division is
not guarded. -/
noncomputable def extrema_values (p0 p1 p2 p3 : ℝ) : Except PyErr (List ℝ) :=
  if (-6 * (p1 - p0) + 6 * (p2 - p1)) ^ 2 -
      2 * (6 * (p1 - p0) - 12 * (p2 - p1) + 6 * (p3 - p2)) * (3 * (p1 - p0)) < 0 then
    Except.ok []
  else if 6 * (p1 - p0) - 12 * (p2 - p1) + 6 * (p3 - p2) = 0 then
    Except.error PyErr.zeroDivision
  else if (-6 * (p1 - p0) + 6 * (p2 - p1)) ^ 2 -
      2 * (6 * (p1 - p0) - 12 * (p2 - p1) + 6 * (p3 - p2)) * (3 * (p1 - p0)) = 0 then
    if 0 < -(-6 * (p1 - p0) + 6 * (p2 - p1)) /
          (6 * (p1 - p0) - 12 * (p2 - p1) + 6 * (p3 - p2)) ∧
        -(-6 * (p1 - p0) + 6 * (p2 - p1)) /
          (6 * (p1 - p0) - 12 * (p2 - p1) + 6 * (p3 - p2)) < 1 then
      Except.ok [cBezier p0 p1 p2 p3
        (-(-6 * (p1 - p0) + 6 * (p2 - p1)) /
          (6 * (p1 - p0) - 12 * (p2 - p1) + 6 * (p3 - p2)))]
    else Except.ok []
  else
    Except.ok
      ((if 0 < -(-6 * (p1 - p0) + 6 * (p2 - p1)) /
              (6 * (p1 - p0) - 12 * (p2 - p1) + 6 * (p3 - p2)) +
            Real.sqrt ((-6 * (p1 - p0) + 6 * (p2 - p1)) ^ 2 -
              2 * (6 * (p1 - p0) - 12 * (p2 - p1) + 6 * (p3 - p2)) * (3 * (p1 - p0))) /
              (6 * (p1 - p0) - 12 * (p2 - p1) + 6 * (p3 - p2)) ∧
            -(-6 * (p1 - p0) + 6 * (p2 - p1)) /
              (6 * (p1 - p0) - 12 * (p2 - p1) + 6 * (p3 - p2)) +
            Real.sqrt ((-6 * (p1 - p0) + 6 * (p2 - p1)) ^ 2 -
              2 * (6 * (p1 - p0) - 12 * (p2 - p1) + 6 * (p3 - p2)) * (3 * (p1 - p0))) /
              (6 * (p1 - p0) - 12 * (p2 - p1) + 6 * (p3 - p2)) < 1 then
        [cBezier p0 p1 p2 p3
          (-(-6 * (p1 - p0) + 6 * (p2 - p1)) /
              (6 * (p1 - p0) - 12 * (p2 - p1) + 6 * (p3 - p2)) +
            Real.sqrt ((-6 * (p1 - p0) + 6 * (p2 - p1)) ^ 2 -
              2 * (6 * (p1 - p0) - 12 * (p2 - p1) + 6 * (p3 - p2)) * (3 * (p1 - p0))) /
              (6 * (p1 - p0) - 12 * (p2 - p1) + 6 * (p3 - p2)))]
      else []) ++
      (if 0 < -(-6 * (p1 - p0) + 6 * (p2 - p1)) /
              (6 * (p1 - p0) - 12 * (p2 - p1) + 6 * (p3 - p2)) -
            Real.sqrt ((-6 * (p1 - p0) + 6 * (p2 - p1)) ^ 2 -
              2 * (6 * (p1 - p0) - 12 * (p2 - p1) + 6 * (p3 - p2)) * (3 * (p1 - p0))) /
              (6 * (p1 - p0) - 12 * (p2 - p1) + 6 * (p3 - p2)) ∧
            -(-6 * (p1 - p0) + 6 * (p2 - p1)) /
              (6 * (p1 - p0) - 12 * (p2 - p1) + 6 * (p3 - p2)) -
            Real.sqrt ((-6 * (p1 - p0) + 6 * (p2 - p1)) ^ 2 -
              2 * (6 * (p1 - p0) - 12 * (p2 - p1) + 6 * (p3 - p2)) * (3 * (p1 - p0))) /
              (6 * (p1 - p0) - 12 * (p2 - p1) + 6 * (p3 - p2)) < 1 then
        [cBezier p0 p1 p2 p3
          (-(-6 * (p1 - p0) + 6 * (p2 - p1)) /
              (6 * (p1 - p0) - 12 * (p2 - p1) + 6 * (p3 - p2)) -
            Real.sqrt ((-6 * (p1 - p0) + 6 * (p2 - p1)) ^ 2 -
              2 * (6 * (p1 - p0) - 12 * (p2 - p1) + 6 * (p3 - p2)) * (3 * (p1 - p0))) /
              (6 * (p1 - p0) - 12 * (p2 - p1) + 6 * (p3 - p2)))]
      else []))

/-- `cubic_bounding_box` (lines 198-287): seed with the endpoints, apply the
convex-hull short-circuit per axis (the box must contain both control
points), otherwise call `extrema_values` and extend per returned value.  The
x-axis block runs first, so its exception wins. -/
noncomputable def cubic_bounding_box (p0 p1 p2 p3 : Point)
    (box : Option BoundingBox) : Except PyErr BoundingBox :=
  match (if (seedBox p0 p3 box).contains_x p1.1 ∧ (seedBox p0 p3 box).contains_x p2.1
         then Except.ok []
         else extrema_values p0.1 p1.1 p2.1 p3.1),
        (if (seedBox p0 p3 box).contains_y p1.2 ∧ (seedBox p0 p3 box).contains_y p2.2
         then Except.ok []
         else extrema_values p0.2 p1.2 p2.2 p3.2) with
  | Except.error e, _ => Except.error e
  | Except.ok _, Except.error e => Except.error e
  | Except.ok xs, Except.ok ys =>
    Except.ok
      ⟨xs.foldl min (seedBox p0 p3 box).left,
       xs.foldl max (seedBox p0 p3 box).right,
       ys.foldl min (seedBox p0 p3 box).bottom,
       ys.foldl max (seedBox p0 p3 box).top⟩

/-- Python's `math.atan2 y x`, i.e. the argument of the complex number
`x + y*i`, valued in `(-π, π]`. -/
noncomputable def atan2 (y x : ℝ) : ℝ := Complex.arg ⟨x, y⟩

/-- The inner helper `angle_between_vectors` of `elliptical_arc_bounding_box`
(lines 423-428): the angle from `a` to `b` normalized into `[0, 2π)`. -/
noncomputable def angle_between_vectors (a b : Point) : ℝ :=
  if atan2 a.2 a.1 ≤ atan2 b.2 b.1 then atan2 b.2 b.1 - atan2 a.2 a.1
  else 2 * Real.pi - (atan2 a.2 a.1 - atan2 b.2 b.1)

/-- The numerator `rx2*ry2 - rx2*ym2 - ry2*xm2` of the root used to compute
the transformed ellipse centre (line 394). -/
def arcNumerator (rx ry xm ym : ℝ) : ℝ :=
  rx ^ 2 * ry ^ 2 - rx ^ 2 * ym ^ 2 - ry ^ 2 * xm ^ 2

/-- The uniform radius scale factor `s = sqrt(1 - numerator/(rx2*ry2))`
applied when the numerator is negative (line 400). -/
noncomputable def arcScale (rx ry xm ym : ℝ) : ℝ :=
  Real.sqrt (1 - arcNumerator rx ry xm ym / (rx ^ 2 * ry ^ 2))

/-- The body of `elliptical_arc_bounding_box` after the coincident-endpoint
check and the endpoint seeding (lines 353-496): radius normalization, the
midpoint transform, centre solving (rescaling the radii via `arcScale` when
`arcNumerator` is negative), start/sweep angle computation, the
sweep-direction-dependent angle containment test, and the four candidate
extremum angles. -/
noncomputable def arcBody (start endp : Point) (rx0 ry0 rot0 la0 sw0 : ℝ)
    (b0 : BoundingBox) : BoundingBox :=
  if rx0 = 0 ∨ ry0 = 0 then b0
  else
    let rxa := if rx0 < 0 then -rx0 else rx0
    let rya := if ry0 < 0 then -ry0 else ry0
    let sw : Prop := sw0 ≠ 0
    let rotation := rot0 * (Real.pi / 180)
    let sin_rotation := Real.sin rotation
    let cos_rotation := Real.cos rotation
    let xm := cos_rotation * (start.1 - endp.1) / 2 + sin_rotation * (start.2 - endp.2) / 2
    let ym := -(sin_rotation * (start.1 - endp.1) / 2) +
      cos_rotation * (start.2 - endp.2) / 2
    let numerator := arcNumerator rxa rya xm ym
    let rx := if numerator < 0 then rxa * arcScale rxa rya xm ym else rxa
    let ry := if numerator < 0 then rya * arcScale rxa rya xm ym else rya
    let root :=
      if numerator < 0 then 0
      else if ((la0 ≠ 0) ↔ (sw0 ≠ 0)) then
        -Real.sqrt (numerator / (rxa ^ 2 * ym ^ 2 + rya ^ 2 * xm ^ 2))
      else Real.sqrt (numerator / (rxa ^ 2 * ym ^ 2 + rya ^ 2 * xm ^ 2))
    let cxprime := root * rx * ym / ry
    let cyprime := -(root * ry * xm) / rx
    let cx := cos_rotation * cxprime - sin_rotation * cyprime + (start.1 + endp.1) / 2
    let cy := sin_rotation * cxprime + cos_rotation * cyprime + (start.2 + endp.2) / 2
    let theta1 := angle_between_vectors (1, 0) ((xm - cxprime) / rx, (ym - cyprime) / ry)
    let dtheta0 := angle_between_vectors ((xm - cxprime) / rx, (ym - cyprime) / ry)
      ((-xm - cxprime) / rx, (-ym - cyprime) / ry)
    let dtheta :=
      if ¬sw ∧ dtheta0 > 0 then dtheta0 - 2 * Real.pi
      else if sw ∧ dtheta0 < 0 then dtheta0 + 2 * Real.pi
      else dtheta0
    let start_angle := if theta1 > Real.pi then theta1 - 2 * Real.pi else theta1
    let theta2 := start_angle + dtheta
    let end_angle :=
      if theta2 > Real.pi then theta2 - 2 * Real.pi
      else if theta2 < -Real.pi then theta2 + 2 * Real.pi
      else theta2
    let contains_angle : ℝ → Prop := fun t =>
      if sw then
        if start_angle < end_angle then ¬(t < start_angle ∨ t > end_angle)
        else ¬(t < start_angle ∧ t > end_angle)
      else
        if start_angle > end_angle then ¬(t > start_angle ∨ t < end_angle)
        else ¬(t > start_angle ∧ t < end_angle)
    let thetax := atan2 (-ry * Real.tan rotation) rx
    let thetay := atan2 ry (rx * Real.tan rotation)
    let xangles := if thetax < 0 then [thetax, thetax + Real.pi]
      else [thetax, thetax - Real.pi]
    let yangles := if thetay < 0 then [thetay, thetay + Real.pi]
      else [thetay, thetay - Real.pi]
    let fx := fun t => cx + rx * Real.cos t * cos_rotation - ry * Real.sin t * sin_rotation
    let fy := fun t => cy + rx * Real.cos t * sin_rotation + ry * Real.sin t * cos_rotation
    let b1 := xangles.foldl (fun b t => if contains_angle t then b.extend_x (fx t) else b) b0
    yangles.foldl (fun b t => if contains_angle t then b.extend_y (fy t) else b) b1

/-- `elliptical_arc_bounding_box` (lines 289-496): when the endpoints
coincide the arc is not drawn and the `box` argument (which may be `None`) is
returned unchanged; otherwise the box is seeded with the endpoints and the
arc body runs. -/
noncomputable def elliptical_arc_bounding_box (start : Point)
    (rx ry rot la sw : ℝ) (endp : Point) (box : Option BoundingBox) :
    Option BoundingBox :=
  if start = endp then box
  else some (arcBody start endp rx ry rot la sw (seedBox start endp box))

/-- A parsed path segment `(type, params)` as produced by
`simplepath.parsePath`: `M`, `L`, `C`, `Q`, `A`, `Z`, or an unknown type.
The payload of `other` stands for the first two entries of the unknown
segment's parameter list. -/
inductive Seg : Type
  | moveTo (p : Point) : Seg
  | lineTo (p : Point) : Seg
  | cubic (p1 p2 p3 : Point) : Seg
  | quad (p1 p2 : Point) : Seg
  | arc (rx ry rot la sw : ℝ) (e : Point) : Seg
  | close : Seg
  | other (p : Point) : Seg

/-- `parsed[0][1]` interpreted as the starting point (lines 532-535): the
first two parameters of the first segment, whatever its type.  A `Z` segment
has an empty parameter list, so indexing it raises `IndexError`. -/
def segFirstPoint : Seg → Option Point
  | Seg.moveTo p => some p
  | Seg.lineTo p => some p
  | Seg.cubic p1 _ _ => some p1
  | Seg.quad p1 _ => some p1
  | Seg.arc rx ry _ _ _ _ => some (rx, ry)
  | Seg.close => none
  | Seg.other p => some p

/-- The segment loop of `path_bounding_box` (lines 538-585): `Z` breaks out
of the loop, `M`/`L` extend the box, `C`/`Q`/`A` delegate to the segment
functions, and any other type raises
`Exception('Unknown path segment type ...')`. -/
noncomputable def pathLoop : List Seg → Point → BoundingBox → Except PyErr BoundingBox
  | [], _, b => Except.ok b
  | Seg.close :: _, _, b => Except.ok b
  | Seg.moveTo p :: rest, _, b => pathLoop rest p (b.extend p)
  | Seg.lineTo p :: rest, _, b => pathLoop rest p (b.extend p)
  | Seg.cubic p1 p2 p3 :: rest, cur, b =>
    match cubic_bounding_box cur p1 p2 p3 (some b) with
    | Except.error e => Except.error e
    | Except.ok b2 => pathLoop rest p3 b2
  | Seg.quad p1 p2 :: rest, cur, b =>
    match quadratic_bounding_box cur p1 p2 (some b) with
    | Except.error e => Except.error e
    | Except.ok b2 => pathLoop rest p2 b2
  | Seg.arc rx ry rot la sw e :: rest, cur, b =>
    pathLoop rest e ((elliptical_arc_bounding_box cur rx ry rot la sw e (some b)).getD b)
  | Seg.other _ :: _, _, _ => Except.error PyErr.unknownSegment

/-- `path_bounding_box` (lines 498-591) on an already-parsed segment list:
the first segment's parameters seed a zero-area box, the loop folds the rest,
and finally either the accumulated box is returned (no `box` argument) or the
value of the Python call `box.combine(objbox)` is returned — which is `None`,
since `combine` mutates in place and returns nothing. -/
noncomputable def path_bounding_box (parsed : List Seg)
    (box : Option BoundingBox) : Except PyErr (Option BoundingBox) :=
  match parsed with
  | [] => Except.error PyErr.indexError
  | first :: rest =>
    match segFirstPoint first with
    | none => Except.error PyErr.indexError
    | some c =>
      match pathLoop rest c (mkBox c.1 c.1 c.2 c.2) with
      | Except.error e => Except.error e
      | Except.ok objbox =>
        match box with
        | none => Except.ok (some objbox)
        | some b => Except.ok ((b.combine objbox).2)

/-- The set of interior parameter roots retained by the code's cubic extrema
computation (lines 240-271): doubled leading coefficient
`a = 6(p1-p0) - 12(p2-p1) + 6(p3-p2)`, discriminant `b^2 - 2*a*c`, roots
`-b/a ± sqrt(disc)/a`, filtered to `0 < t < 1`. -/
noncomputable def cubicDerivRootsCode (p0 p1 p2 p3 : ℝ) : Set ℝ :=
  if (-6 * (p1 - p0) + 6 * (p2 - p1)) ^ 2 -
      2 * (6 * (p1 - p0) - 12 * (p2 - p1) + 6 * (p3 - p2)) * (3 * (p1 - p0)) < 0 then ∅
  else if (-6 * (p1 - p0) + 6 * (p2 - p1)) ^ 2 -
      2 * (6 * (p1 - p0) - 12 * (p2 - p1) + 6 * (p3 - p2)) * (3 * (p1 - p0)) = 0 then
    {t | t = -(-6 * (p1 - p0) + 6 * (p2 - p1)) /
        (6 * (p1 - p0) - 12 * (p2 - p1) + 6 * (p3 - p2)) ∧ 0 < t ∧ t < 1}
  else
    {t | (t = -(-6 * (p1 - p0) + 6 * (p2 - p1)) /
            (6 * (p1 - p0) - 12 * (p2 - p1) + 6 * (p3 - p2)) +
          Real.sqrt ((-6 * (p1 - p0) + 6 * (p2 - p1)) ^ 2 -
            2 * (6 * (p1 - p0) - 12 * (p2 - p1) + 6 * (p3 - p2)) * (3 * (p1 - p0))) /
            (6 * (p1 - p0) - 12 * (p2 - p1) + 6 * (p3 - p2)) ∨
          t = -(-6 * (p1 - p0) + 6 * (p2 - p1)) /
            (6 * (p1 - p0) - 12 * (p2 - p1) + 6 * (p3 - p2)) -
          Real.sqrt ((-6 * (p1 - p0) + 6 * (p2 - p1)) ^ 2 -
            2 * (6 * (p1 - p0) - 12 * (p2 - p1) + 6 * (p3 - p2)) * (3 * (p1 - p0))) /
            (6 * (p1 - p0) - 12 * (p2 - p1) + 6 * (p3 - p2))) ∧ 0 < t ∧ t < 1}

/-- Modelled from the spec: the canonical quadratic formula applied to the
spec's derivative coefficients `a = 3(−p0+3p1−3p2+p3)`, `b = 6(p0−2p1+p2)`,
`c = 3(p1−p0)`, with discriminant `b² − 4ac`; no real roots when negative,
one root `−b/(2a)` when zero, two roots `(−b ± sqrt(disc))/(2a)` when
positive; filtered to the interior `0 < t < 1`. -/
noncomputable def cubicDerivRootsSpec (p0 p1 p2 p3 : ℝ) : Set ℝ :=
  if (6 * (p0 - 2 * p1 + p2)) ^ 2 -
      4 * (3 * (-p0 + 3 * p1 - 3 * p2 + p3)) * (3 * (p1 - p0)) < 0 then ∅
  else if (6 * (p0 - 2 * p1 + p2)) ^ 2 -
      4 * (3 * (-p0 + 3 * p1 - 3 * p2 + p3)) * (3 * (p1 - p0)) = 0 then
    {t | t = -(6 * (p0 - 2 * p1 + p2)) / (2 * (3 * (-p0 + 3 * p1 - 3 * p2 + p3))) ∧
      0 < t ∧ t < 1}
  else
    {t | (t = (-(6 * (p0 - 2 * p1 + p2)) +
          Real.sqrt ((6 * (p0 - 2 * p1 + p2)) ^ 2 -
            4 * (3 * (-p0 + 3 * p1 - 3 * p2 + p3)) * (3 * (p1 - p0)))) /
          (2 * (3 * (-p0 + 3 * p1 - 3 * p2 + p3))) ∨
        t = (-(6 * (p0 - 2 * p1 + p2)) -
          Real.sqrt ((6 * (p0 - 2 * p1 + p2)) ^ 2 -
            4 * (3 * (-p0 + 3 * p1 - 3 * p2 + p3)) * (3 * (p1 - p0)))) /
          (2 * (3 * (-p0 + 3 * p1 - 3 * p2 + p3)))) ∧ 0 < t ∧ t < 1}

/-! ## Helper lemmas -/

lemma BoundingBox.contains_iff (b : BoundingBox) (p : Point) :
    b.contains p ↔ b.left ≤ p.1 ∧ p.1 ≤ b.right ∧ b.bottom ≤ p.2 ∧ p.2 ≤ b.top := by
  unfold BoundingBox.contains
  push_neg
  tauto

lemma seedBox_endpoints (p q : Point) (box : Option BoundingBox) :
    (seedBox p q box).left ≤ p.1 ∧ p.1 ≤ (seedBox p q box).right ∧
    (seedBox p q box).left ≤ q.1 ∧ q.1 ≤ (seedBox p q box).right ∧
    (seedBox p q box).bottom ≤ p.2 ∧ p.2 ≤ (seedBox p q box).top ∧
    (seedBox p q box).bottom ≤ q.2 ∧ q.2 ≤ (seedBox p q box).top := by
  cases box with
  | none =>
    simp only [seedBox, mkBox]
    refine ⟨min_le_left _ _, le_max_left _ _, min_le_right _ _, le_max_right _ _,
      min_le_left _ _, le_max_left _ _, min_le_right _ _, le_max_right _ _⟩
  | some b =>
    simp only [seedBox, BoundingBox.extend]
    refine ⟨le_trans (min_le_left _ _) (min_le_right _ _), ?_,
      min_le_right _ _, le_max_right _ _,
      le_trans (min_le_left _ _) (min_le_right _ _), ?_,
      min_le_right _ _, le_max_right _ _⟩
    · exact le_trans (le_max_right _ _) (le_max_left _ _)
    · exact le_trans (le_max_right _ _) (le_max_left _ _)

lemma seedBox_extends (p q : Point) (b : BoundingBox) :
    (seedBox p q (some b)).left ≤ b.left ∧ b.right ≤ (seedBox p q (some b)).right ∧
    (seedBox p q (some b)).bottom ≤ b.bottom ∧ b.top ≤ (seedBox p q (some b)).top := by
  simp only [seedBox, BoundingBox.extend]
  exact ⟨le_trans (min_le_left _ _) (min_le_left _ _),
    le_trans (le_max_left _ _) (le_max_left _ _),
    le_trans (min_le_left _ _) (min_le_left _ _),
    le_trans (le_max_left _ _) (le_max_left _ _)⟩

/-! ## Claim theorems -/

/-- C7: every `BoundingBox` is normalized at construction (`left`/`bottom`
take the per-axis minimum of the constructor arguments, `right`/`top` the
maximum), and `contains`, `contains_x`, `contains_y`, `extend`, `extend_x`,
`extend_y` and `combine` all preserve `left ≤ right ∧ bottom ≤ top` (the
three membership tests are pure and leave the box untouched; the mutators
only ever widen each axis range). -/
theorem boundingBox_normalized_invariant :
    (∀ x0 x1 y0 y1 : ℝ,
      (mkBox x0 x1 y0 y1).left = min x0 x1 ∧ (mkBox x0 x1 y0 y1).right = max x0 x1 ∧
      (mkBox x0 x1 y0 y1).bottom = min y0 y1 ∧ (mkBox x0 x1 y0 y1).top = max y0 y1 ∧
      (mkBox x0 x1 y0 y1).Normalized) ∧
    (∀ (b : BoundingBox) (p : Point), b.Normalized →
      (b.contains p → b.Normalized) ∧ (b.extend p).Normalized) ∧
    (∀ (b : BoundingBox) (x : ℝ), b.Normalized →
      (b.contains_x x → b.Normalized) ∧ (b.extend_x x).Normalized) ∧
    (∀ (b : BoundingBox) (y : ℝ), b.Normalized →
      (b.contains_y y → b.Normalized) ∧ (b.extend_y y).Normalized) ∧
    (∀ b other : BoundingBox, b.Normalized → ((b.combine other).1).Normalized) := by
  refine ⟨?_, ?_, ?_, ?_, ?_⟩
  · intro x0 x1 y0 y1
    exact ⟨rfl, rfl, rfl, rfl, min_le_max, min_le_max⟩
  · intro b p hb
    exact ⟨fun _ => hb,
      le_trans (min_le_left _ _) (le_trans hb.1 (le_max_left _ _)),
      le_trans (min_le_left _ _) (le_trans hb.2 (le_max_left _ _))⟩
  · intro b x hb
    exact ⟨fun _ => hb,
      le_trans (min_le_left _ _) (le_trans hb.1 (le_max_left _ _)), hb.2⟩
  · intro b y hb
    exact ⟨fun _ => hb, hb.1,
      le_trans (min_le_left _ _) (le_trans hb.2 (le_max_left _ _))⟩
  · intro b other hb
    exact ⟨le_trans (min_le_left _ _) (le_trans hb.1 (le_max_left _ _)),
      le_trans (min_le_left _ _) (le_trans hb.2 (le_max_left _ _))⟩

/-- Witness for C7 at concrete boxes. -/
theorem boundingBox_normalized_invariant_witness :
    (mkBox 0 3 1 2).Normalized ∧ ((mkBox 0 3 1 2).extend (5, 7)).Normalized :=
  ⟨(boundingBox_normalized_invariant.1 0 3 1 2).2.2.2.2,
    (boundingBox_normalized_invariant.2.1 (mkBox 0 3 1 2) (5, 7)
      (by constructor <;> norm_num [mkBox, BoundingBox.Normalized])).2⟩

/-- C8: when the start and end points coincide, `elliptical_arc_bounding_box`
returns its `box` argument exactly as given — including `None` — whatever the
radii, rotation and flags are. -/
theorem arc_coincident_endpoints_returns_box (start endp : Point)
    (rx ry rot la sw : ℝ) (box : Option BoundingBox) (h : start = endp) :
    elliptical_arc_bounding_box start rx ry rot la sw endp box = box := by
  unfold elliptical_arc_bounding_box
  rw [if_pos h]

/-- Witness for C8: a degenerate arc with no supplied box returns `none`. -/
theorem arc_coincident_endpoints_returns_box_witness :
    elliptical_arc_bounding_box (1, 2) 3 4 5 1 0 (1, 2) none = none :=
  arc_coincident_endpoints_returns_box (1, 2) (1, 2) 3 4 5 1 0 none rfl

/-- C5 (code bug): whenever a pre-existing box is supplied,
`path_bounding_box` returns the value of the Python call
`box.combine(objbox)`, and `BoundingBox.combine` has no `return` statement:
the caller receives `None`, never the combined `BoundingBox` the spec (and
the function's own docstring) promise. -/
theorem path_with_existing_box_returns_none (segs : List Seg) (b : BoundingBox) :
    (∃ e, path_bounding_box segs (some b) = Except.error e) ∨
    path_bounding_box segs (some b) = Except.ok none := by
  unfold path_bounding_box
  match segs with
  | [] => exact Or.inl ⟨PyErr.indexError, rfl⟩
  | first :: rest =>
    cases h : segFirstPoint first with
    | none => exact Or.inl ⟨PyErr.indexError, by simp [h]⟩
    | some c =>
      cases hl : pathLoop rest c (mkBox c.1 c.1 c.2 c.2) with
      | error e => exact Or.inl ⟨e, by simp [h, hl]⟩
      | ok objbox => exact Or.inr (by simp [h, hl, BoundingBox.combine])

/-- C2 (code bug): on the degenerate cubic `p0=(0,0)`, `p1=(1,0)`,
`p2=(1,0)`, `p3=(0,0)` the x-axis leading coefficient
`a = 6(p1-p0) - 12(p2-p1) + 6(p3-p2)` is zero while the convex-hull
short-circuit does not fire, so the unguarded Python division `ba = -b / a`
raises `ZeroDivisionError`: `cubic_bounding_box` does not use the linear
fallback `t = -c/b` the spec requires and returns no finite box. -/
theorem cubic_degenerate_leading_coeff_zero_division :
    cubic_bounding_box ((0 : ℝ), (0 : ℝ)) (1, 0) (1, 0) (0, 0) none =
      Except.error PyErr.zeroDivision := by
  unfold cubic_bounding_box extrema_values
  norm_num [seedBox, mkBox, BoundingBox.contains_x, BoundingBox.contains_y]

/-- The segment loop ignores everything after the first `Z`: appending any
suffix after a `Z` does not change the loop's result. -/
lemma pathLoop_close_stops (pre suf : List Seg) :
    ∀ (c : Point) (b : BoundingBox),
    pathLoop (pre ++ Seg.close :: suf) c b = pathLoop (pre ++ [Seg.close]) c b := by
  induction pre with
  | nil => intro c b; rfl
  | cons s pre ih =>
    intro c b
    cases s with
    | moveTo p => simpa only [List.cons_append, pathLoop] using ih p (b.extend p)
    | lineTo p => simpa only [List.cons_append, pathLoop] using ih p (b.extend p)
    | cubic p1 p2 p3 =>
      simp only [List.cons_append, pathLoop]
      cases cubic_bounding_box c p1 p2 p3 (some b) with
      | error e => rfl
      | ok b2 => exact ih p3 b2
    | quad p1 p2 =>
      simp only [List.cons_append, pathLoop]
      cases quadratic_bounding_box c p1 p2 (some b) with
      | error e => rfl
      | ok b2 => exact ih p2 b2
    | arc rx ry rot la sw e =>
      simpa only [List.cons_append, pathLoop] using ih e _
    | close => rfl
    | other p => rfl

/-- C10: the path traversal terminates at the first `Z` segment — for any
split `pre ++ [Z] ++ suf` the computed bounds equal those of `pre ++ [Z]`
alone, so no segment after the first `Z` influences the result. -/
theorem path_traversal_stops_at_first_close (pre suf : List Seg)
    (box : Option BoundingBox) :
    path_bounding_box (pre ++ Seg.close :: suf) box =
      path_bounding_box (pre ++ [Seg.close]) box := by
  cases pre with
  | nil => rfl
  | cons first pre =>
    simp only [List.cons_append, path_bounding_box]
    cases h : segFirstPoint first with
    | none => rfl
    | some c => simp only [pathLoop_close_stops pre suf]

/-- Counterexample to C9: a sequence whose only segment has an unknown type.
`path_bounding_box` never inspects the type of `parsed[0]` — it reads
`parsed[0][1]` as the starting point — so the computation succeeds and
returns a box instead of failing with the unknown-segment error. -/
theorem unknown_first_segment_succeeds :
    path_bounding_box [Seg.other (1, 2)] none = Except.ok (some (mkBox 1 1 2 2)) := rfl

/-- A successfully processed `Z`-free segment list is a left context: the
loop continues into any appended segments from the reached state. -/
lemma pathLoop_append_ok (mid : List Seg) :
    ∀ (rest : List Seg) (c : Point) (b b2 : BoundingBox),
    Seg.close ∉ mid → pathLoop mid c b = Except.ok b2 →
    ∃ c2, pathLoop (mid ++ rest) c b = pathLoop rest c2 b2 := by
  induction mid with
  | nil =>
    intro rest c b b2 _ h
    obtain rfl : b = b2 := by injection h
    exact ⟨c, by simp⟩
  | cons s mid ih =>
    intro rest c b b2 hnc h
    have hnc2 : Seg.close ∉ mid := fun hm => hnc (List.mem_cons_of_mem _ hm)
    cases s with
    | close => exact absurd (List.mem_cons_self _ _) hnc
    | moveTo p =>
      simp only [List.cons_append, pathLoop] at h ⊢
      exact ih rest p _ b2 hnc2 h
    | lineTo p =>
      simp only [List.cons_append, pathLoop] at h ⊢
      exact ih rest p _ b2 hnc2 h
    | cubic p1 p2 p3 =>
      simp only [List.cons_append, pathLoop] at h ⊢
      cases hcb : cubic_bounding_box c p1 p2 p3 (some b) with
      | error e => rw [hcb] at h; simp at h
      | ok b3 => rw [hcb] at h; exact ih rest p3 b3 b2 hnc2 h
    | quad p1 p2 =>
      simp only [List.cons_append, pathLoop] at h ⊢
      cases hcb : quadratic_bounding_box c p1 p2 (some b) with
      | error e => rw [hcb] at h; simp at h
      | ok b3 => rw [hcb] at h; exact ih rest p2 b3 b2 hnc2 h
    | arc rx ry rot la sw e =>
      simp only [List.cons_append, pathLoop] at h ⊢
      exact ih rest e _ b2 hnc2 h
    | other p =>
      simp only [List.cons_append, pathLoop] at h
      exact absurd h (by simp)

/-- C9 as amended: an unsupported segment type occurring after the first
position, not preceded by a `Z`, and actually reached by the traversal (the
segments before it process without error) makes `path_bounding_box` fail
with the unknown-segment error and no partial box. -/
theorem unknown_segment_after_first_fails (first : Seg) (mid tail : List Seg)
    (p : Point) (box : Option BoundingBox) (c : Point) (b2 : BoundingBox)
    (hc : segFirstPoint first = some c)
    (hnc : Seg.close ∉ mid)
    (hmid : pathLoop mid c (mkBox c.1 c.1 c.2 c.2) = Except.ok b2) :
    path_bounding_box (first :: (mid ++ Seg.other p :: tail)) box =
      Except.error PyErr.unknownSegment := by
  obtain ⟨c2, hloop⟩ :=
    pathLoop_append_ok mid (Seg.other p :: tail) c (mkBox c.1 c.1 c.2 c.2) b2 hnc hmid
  simp only [path_bounding_box, hc, hloop, pathLoop]

/-- Witness for the amended C9: `M (0,0); L (1,1); <unknown>` fails with the
unknown-segment error. -/
theorem unknown_segment_after_first_fails_witness :
    path_bounding_box [Seg.moveTo (0, 0), Seg.lineTo (1, 1), Seg.other (9, 9)] none =
      Except.error PyErr.unknownSegment :=
  unknown_segment_after_first_fails (Seg.moveTo (0, 0)) [Seg.lineTo (1, 1)] []
    (9, 9) none (0, 0) ((mkBox 0 0 0 0).extend (1, 1)) rfl (by simp) rfl

/-- C4: when the centre-solving numerator `rx²ry² − rx²ym² − ry²xm²` is
negative, multiplying both radii by `s = sqrt(1 − numerator/(rx²ry²))` makes
the recomputed numerator exactly zero, and every smaller positive uniform
scale still leaves it negative — the code's factor is the minimal one. -/
theorem arc_radius_rescale_minimal (rx ry xm ym : ℝ) (hrx : 0 < rx)
    (hry : 0 < ry) (hneg : arcNumerator rx ry xm ym < 0) :
    arcNumerator (rx * arcScale rx ry xm ym) (ry * arcScale rx ry xm ym) xm ym = 0 ∧
    ∀ s : ℝ, 0 < s → s < arcScale rx ry xm ym →
      arcNumerator (rx * s) (ry * s) xm ym < 0 := by
  have hR : 0 < rx ^ 2 * ry ^ 2 := by positivity
  have hK : rx ^ 2 * ry ^ 2 < rx ^ 2 * ym ^ 2 + ry ^ 2 * xm ^ 2 := by
    unfold arcNumerator at hneg
    linarith
  have hKpos : 0 < rx ^ 2 * ym ^ 2 + ry ^ 2 * xm ^ 2 := lt_trans hR hK
  have harg : 1 - arcNumerator rx ry xm ym / (rx ^ 2 * ry ^ 2)
      = (rx ^ 2 * ym ^ 2 + ry ^ 2 * xm ^ 2) / (rx ^ 2 * ry ^ 2) := by
    field_simp [arcNumerator]
    ring
  have hs2 : arcScale rx ry xm ym ^ 2
      = (rx ^ 2 * ym ^ 2 + ry ^ 2 * xm ^ 2) / (rx ^ 2 * ry ^ 2) := by
    rw [arcScale, Real.sq_sqrt, harg]
    rw [harg]
    exact le_of_lt (div_pos hKpos hR)
  constructor
  · have hexp : arcNumerator (rx * arcScale rx ry xm ym) (ry * arcScale rx ry xm ym) xm ym
        = arcScale rx ry xm ym ^ 2 * (arcScale rx ry xm ym ^ 2 * (rx ^ 2 * ry ^ 2) -
          (rx ^ 2 * ym ^ 2 + ry ^ 2 * xm ^ 2)) := by
      unfold arcNumerator
      ring
    rw [hexp, hs2]
    field_simp
  · intro s hs hslt
    have hs2lt : s ^ 2 < arcScale rx ry xm ym ^ 2 :=
      pow_lt_pow_left₀ hslt (le_of_lt hs) (by norm_num)
    have hSR : s ^ 2 * (rx ^ 2 * ry ^ 2) < rx ^ 2 * ym ^ 2 + ry ^ 2 * xm ^ 2 := by
      calc s ^ 2 * (rx ^ 2 * ry ^ 2)
          < arcScale rx ry xm ym ^ 2 * (rx ^ 2 * ry ^ 2) :=
            mul_lt_mul_of_pos_right hs2lt hR
        _ = rx ^ 2 * ym ^ 2 + ry ^ 2 * xm ^ 2 := by
            rw [hs2]
            field_simp
    have hexp : arcNumerator (rx * s) (ry * s) xm ym
        = s ^ 2 * (s ^ 2 * (rx ^ 2 * ry ^ 2) - (rx ^ 2 * ym ^ 2 + ry ^ 2 * xm ^ 2)) := by
      unfold arcNumerator
      ring
    rw [hexp]
    exact mul_neg_of_pos_of_neg (by positivity) (by linarith)

/-- Witness for C4 at `rx = ry = 1`, `xm = 2`, `ym = 0` (numerator `-3`). -/
theorem arc_radius_rescale_minimal_witness :
    arcNumerator 1 1 2 0 < 0 ∧
    arcNumerator (1 * arcScale 1 1 2 0) (1 * arcScale 1 1 2 0) 2 0 = 0 :=
  ⟨by norm_num [arcNumerator],
    (arc_radius_rescale_minimal 1 1 2 0 one_pos one_pos (by norm_num [arcNumerator])).1⟩

/-- C3: with a nonzero doubled leading coefficient
`a = 6(p1-p0) - 12(p2-p1) + 6(p3-p2)`, the code's interior root set (from
discriminant `b² - 2ac` and roots `-b/a ± sqrt(disc)/a`) coincides with the
canonical quadratic formula applied to the spec's derivative coefficients. -/
theorem cubic_extrema_refines_spec_roots (p0 p1 p2 p3 : ℝ)
    (_ha : 6 * (p1 - p0) - 12 * (p2 - p1) + 6 * (p3 - p2) ≠ 0) :
    cubicDerivRootsCode p0 p1 p2 p3 = cubicDerivRootsSpec p0 p1 p2 p3 := by
  have hdc : (-6 * (p1 - p0) + 6 * (p2 - p1)) ^ 2 -
      2 * (6 * (p1 - p0) - 12 * (p2 - p1) + 6 * (p3 - p2)) * (3 * (p1 - p0))
      = (6 * (p0 - 2 * p1 + p2)) ^ 2 -
        4 * (3 * (-p0 + 3 * p1 - 3 * p2 + p3)) * (3 * (p1 - p0)) := by
    ring
  have hac : 6 * (p1 - p0) - 12 * (p2 - p1) + 6 * (p3 - p2)
      = 2 * (3 * (-p0 + 3 * p1 - 3 * p2 + p3)) := by
    ring
  have hbc : -6 * (p1 - p0) + 6 * (p2 - p1) = 6 * (p0 - 2 * p1 + p2) := by
    ring
  unfold cubicDerivRootsCode cubicDerivRootsSpec
  simp only [hdc]
  simp only [hac, hbc, add_div, sub_div]

/-- Witness for C3 at `p0 = p1 = p2 = 0`, `p3 = 1` (where `a = 6`). -/
theorem cubic_extrema_refines_spec_roots_witness :
    (6 * ((0 : ℝ) - 0) - 12 * (0 - 0) + 6 * (1 - 0) ≠ 0) ∧
    cubicDerivRootsCode 0 0 0 1 = cubicDerivRootsSpec 0 0 0 1 :=
  ⟨by norm_num, cubic_extrema_refines_spec_roots 0 0 0 1 (by norm_num)⟩

/-- Convex-hull bound: when all three control values lie in `[lo, hi]` the
quadratic Bézier basis stays in `[lo, hi]` for every `t ∈ [0, 1]`. -/
lemma qBezier_bounds_of_contains (p0 p1 p2 lo hi t : ℝ)
    (h0 : lo ≤ p0) (h0h : p0 ≤ hi) (h1 : lo ≤ p1) (h1h : p1 ≤ hi)
    (h2 : lo ≤ p2) (h2h : p2 ≤ hi) (ht : 0 ≤ t) (ht1 : t ≤ 1) :
    lo ≤ qBezier p0 p1 p2 t ∧ qBezier p0 p1 p2 t ≤ hi := by
  unfold qBezier
  constructor
  · nlinarith [mul_nonneg (sq_nonneg (1 - t)) (sub_nonneg.2 h0),
      mul_nonneg (mul_nonneg (by linarith : (0 : ℝ) ≤ 1 - t) ht) (sub_nonneg.2 h1),
      mul_nonneg (sq_nonneg t) (sub_nonneg.2 h2)]
  · nlinarith [mul_nonneg (sq_nonneg (1 - t)) (sub_nonneg.2 h0h),
      mul_nonneg (mul_nonneg (by linarith : (0 : ℝ) ≤ 1 - t) ht) (sub_nonneg.2 h1h),
      mul_nonneg (sq_nonneg t) (sub_nonneg.2 h2h)]

/-- The quadratic Bézier basis differs from its value at the critical
parameter `(p1-p0)/((p1-p0)-(p2-p1))` by the leading coefficient times a
square. -/
lemma qBezier_vertex_diff (p0 p1 p2 t : ℝ)
    (hden : (p1 - p0) - (p2 - p1) ≠ 0) :
    qBezier p0 p1 p2 t - qBezier p0 p1 p2 ((p1 - p0) / ((p1 - p0) - (p2 - p1)))
      = ((p2 - p1) - (p1 - p0)) *
        (t - (p1 - p0) / ((p1 - p0) - (p2 - p1))) ^ 2 := by
  unfold qBezier
  field_simp
  ring

/-- Per-axis soundness of the quadratic extremum search: starting from any
axis range containing both endpoint values, `quadAxis` succeeds (a zero
denominator forces the midpoint control value, which the convex-hull
short-circuit catches first), only widens the range, and the widened range
contains the whole curve for `t ∈ [0, 1]`. -/
lemma quadAxis_ok (p0 p1 p2 lo hi : ℝ)
    (h0 : lo ≤ p0) (h0h : p0 ≤ hi) (h2 : lo ≤ p2) (h2h : p2 ≤ hi) :
    ∃ l r, quadAxis p0 p1 p2 lo hi = Except.ok (l, r) ∧ l ≤ lo ∧ hi ≤ r ∧
      ∀ t, 0 ≤ t → t ≤ 1 → l ≤ qBezier p0 p1 p2 t ∧ qBezier p0 p1 p2 t ≤ r := by
  unfold quadAxis
  by_cases hc : ¬(p1 < lo ∨ p1 > hi)
  · rw [if_pos hc]
    push_neg at hc
    exact ⟨lo, hi, rfl, le_refl lo, le_refl hi, fun t ht ht1 =>
      qBezier_bounds_of_contains p0 p1 p2 lo hi t h0 h0h hc.1 hc.2 h2 h2h ht ht1⟩
  · rw [if_neg hc]
    rw [not_not] at hc
    have hden : (p1 - p0) - (p2 - p1) ≠ 0 := by
      rcases hc with h | h
      · exact ne_of_lt (by linarith)
      · exact ne_of_gt (by linarith)
    rw [if_neg hden]
    rcases hc with hlow | hhigh
    · have hdneg : (p1 - p0) - (p2 - p1) < 0 := by linarith
      have ht0pos : 0 < (p1 - p0) / ((p1 - p0) - (p2 - p1)) :=
        div_pos_of_neg_of_neg (by linarith) hdneg
      have ht0lt : (p1 - p0) / ((p1 - p0) - (p2 - p1)) < 1 :=
        (div_lt_one_of_neg hdneg).2 (by linarith)
      rw [if_pos ⟨ht0pos, ht0lt⟩]
      refine ⟨_, _, rfl, min_le_left _ _, le_max_left _ _, ?_⟩
      intro t ht ht1
      constructor
      · have hd := qBezier_vertex_diff p0 p1 p2 t hden
        have hvle : qBezier p0 p1 p2 ((p1 - p0) / ((p1 - p0) - (p2 - p1)))
            ≤ qBezier p0 p1 p2 t := by
          nlinarith [sq_nonneg (t - (p1 - p0) / ((p1 - p0) - (p2 - p1)))]
        exact le_trans (min_le_right _ _) hvle
      · have hch : qBezier p0 p1 p2 t ≤ hi := by
          unfold qBezier
          nlinarith [mul_nonneg (by linarith : (0 : ℝ) ≤ 1 - t) (by linarith : 0 ≤ hi - p0),
            mul_nonneg ht (by linarith : 0 ≤ hi - p2),
            mul_nonneg (by linarith : (0 : ℝ) ≤ p0 + p2 - 2 * p1)
              (mul_nonneg ht (by linarith : (0 : ℝ) ≤ 1 - t))]
        exact le_trans hch (le_max_left _ _)
    · have hdpos : 0 < (p1 - p0) - (p2 - p1) := by linarith
      have ht0pos : 0 < (p1 - p0) / ((p1 - p0) - (p2 - p1)) :=
        div_pos (by linarith) hdpos
      have ht0lt : (p1 - p0) / ((p1 - p0) - (p2 - p1)) < 1 :=
        (div_lt_one hdpos).2 (by linarith)
      rw [if_pos ⟨ht0pos, ht0lt⟩]
      refine ⟨_, _, rfl, min_le_left _ _, le_max_left _ _, ?_⟩
      intro t ht ht1
      constructor
      · have hch : lo ≤ qBezier p0 p1 p2 t := by
          unfold qBezier
          nlinarith [mul_nonneg (by linarith : (0 : ℝ) ≤ 1 - t) (by linarith : 0 ≤ p0 - lo),
            mul_nonneg ht (by linarith : 0 ≤ p2 - lo),
            mul_nonneg (by linarith : (0 : ℝ) ≤ 2 * p1 - p0 - p2)
              (mul_nonneg ht (by linarith : (0 : ℝ) ≤ 1 - t))]
        exact le_trans (min_le_left _ _) hch
      · have hd := qBezier_vertex_diff p0 p1 p2 t hden
        have hvle : qBezier p0 p1 p2 t
            ≤ qBezier p0 p1 p2 ((p1 - p0) / ((p1 - p0) - (p2 - p1))) := by
          nlinarith [sq_nonneg (t - (p1 - p0) / ((p1 - p0) - (p2 - p1)))]
        exact le_trans hvle (le_max_right _ _)

/-- C1: `quadratic_bounding_box` always succeeds on exact real inputs (the
division's denominator can only vanish when the control value is the
endpoint midpoint, which the convex-hull short-circuit catches first), the
returned box contains the curve point
`p0*(1-t)² + p1*2*(1-t)*t + p2*t²` for every `t ∈ [0, 1]`, and it only ever
extends — never shrinks — a supplied existing box. -/
theorem quadratic_bounding_box_contains_curve (p0 p1 p2 : Point)
    (box : Option BoundingBox) :
    ∃ b2, quadratic_bounding_box p0 p1 p2 box = Except.ok b2 ∧
      (∀ t, 0 ≤ t → t ≤ 1 →
        b2.contains (qBezier p0.1 p1.1 p2.1 t, qBezier p0.2 p1.2 p2.2 t)) ∧
      ∀ b, box = some b → b2.left ≤ b.left ∧ b.right ≤ b2.right ∧
        b2.bottom ≤ b.bottom ∧ b.top ≤ b2.top := by
  obtain ⟨s0x, s0xh, s2x, s2xh, s0y, s0yh, s2y, s2yh⟩ := seedBox_endpoints p0 p2 box
  obtain ⟨lx, rx, hx, hxlo, hxhi, hxall⟩ :=
    quadAxis_ok p0.1 p1.1 p2.1 (seedBox p0 p2 box).left (seedBox p0 p2 box).right
      s0x s0xh s2x s2xh
  obtain ⟨ly, ry, hy, hylo, hyhi, hyall⟩ :=
    quadAxis_ok p0.2 p1.2 p2.2 (seedBox p0 p2 box).bottom (seedBox p0 p2 box).top
      s0y s0yh s2y s2yh
  refine ⟨⟨lx, rx, ly, ry⟩, ?_, ?_, ?_⟩
  · unfold quadratic_bounding_box
    rw [hx, hy]
  · intro t ht ht1
    rw [BoundingBox.contains_iff]
    exact ⟨(hxall t ht ht1).1, (hxall t ht ht1).2, (hyall t ht ht1).1, (hyall t ht ht1).2⟩
  · rintro b rfl
    obtain ⟨e1, e2, e3, e4⟩ := seedBox_extends p0 p2 b
    exact ⟨le_trans hxlo e1, le_trans e2 hxhi, le_trans hylo e3, le_trans e4 hyhi⟩

/-- Witness for C1 at the spec's concrete scenario
`p0=(0,0)`, `p1=(2,2)`, `p2=(4,0)`, evaluated at `t = 1/2`. -/
theorem quadratic_bounding_box_contains_curve_witness :
    ∃ b2, quadratic_bounding_box ((0 : ℝ), (0 : ℝ)) (2, 2) (4, 0) none = Except.ok b2 ∧
      b2.contains (qBezier 0 2 4 (1 / 2), qBezier 0 2 0 (1 / 2)) := by
  obtain ⟨b2, h1, h2, _⟩ := quadratic_bounding_box_contains_curve (0, 0) (2, 2) (4, 0) none
  exact ⟨b2, h1, h2 (1 / 2) (by norm_num) (by norm_num)⟩

/-- A zero extremum denominator forces the control value to the endpoint
midpoint, so the convex-hull short-circuit fires before the unguarded
division and the axis range is returned untouched. -/
lemma quadAxis_zero_denominator (p0 p1 p2 lo hi : ℝ)
    (h0 : lo ≤ p0) (h0h : p0 ≤ hi) (h2 : lo ≤ p2) (h2h : p2 ≤ hi)
    (hden : (p1 - p0) - (p2 - p1) = 0) :
    quadAxis p0 p1 p2 lo hi = Except.ok (lo, hi) := by
  unfold quadAxis
  rw [if_pos]
  push_neg
  constructor <;> linarith

/-- C6: a zero extremum denominator `(p1-p0)-(p2-p1)` on either axis means
the control value on that axis is the endpoint midpoint, so the convex-hull
short-circuit fires: the division branch on that axis is never entered, no
division error is raised, the function returns a box, and that axis of the
result is exactly the endpoint-seeded range. -/
theorem quadratic_degenerate_denominator_skips_extremum (p0 p1 p2 : Point)
    (box : Option BoundingBox) :
    ((p1.1 - p0.1) - (p2.1 - p1.1) = 0 →
      ∃ b2, quadratic_bounding_box p0 p1 p2 box = Except.ok b2 ∧
        b2.left = (seedBox p0 p2 box).left ∧
        b2.right = (seedBox p0 p2 box).right) ∧
    ((p1.2 - p0.2) - (p2.2 - p1.2) = 0 →
      ∃ b2, quadratic_bounding_box p0 p1 p2 box = Except.ok b2 ∧
        b2.bottom = (seedBox p0 p2 box).bottom ∧
        b2.top = (seedBox p0 p2 box).top) := by
  obtain ⟨s0x, s0xh, s2x, s2xh, s0y, s0yh, s2y, s2yh⟩ := seedBox_endpoints p0 p2 box
  constructor
  · intro hden
    obtain ⟨ly, ry, hy, hylo, hyhi, hyall⟩ :=
      quadAxis_ok p0.2 p1.2 p2.2 (seedBox p0 p2 box).bottom (seedBox p0 p2 box).top
        s0y s0yh s2y s2yh
    refine ⟨⟨(seedBox p0 p2 box).left, (seedBox p0 p2 box).right, ly, ry⟩, ?_, rfl, rfl⟩
    unfold quadratic_bounding_box
    rw [quadAxis_zero_denominator p0.1 p1.1 p2.1 _ _ s0x s0xh s2x s2xh hden, hy]
  · intro hden
    obtain ⟨lx, rx, hx, hxlo, hxhi, hxall⟩ :=
      quadAxis_ok p0.1 p1.1 p2.1 (seedBox p0 p2 box).left (seedBox p0 p2 box).right
        s0x s0xh s2x s2xh
    refine ⟨⟨lx, rx, (seedBox p0 p2 box).bottom, (seedBox p0 p2 box).top⟩, ?_, rfl, rfl⟩
    unfold quadratic_bounding_box
    rw [hx, quadAxis_zero_denominator p0.2 p1.2 p2.2 _ _ s0y s0yh s2y s2yh hden]

/-- Witness for C6: `p0=(0,0)`, `p1=(1,2)`, `p2=(2,4)` has a zero extremum
denominator on both axes; both implications are exercised. -/
theorem quadratic_degenerate_denominator_skips_extremum_witness :
    (∃ b2, quadratic_bounding_box ((0 : ℝ), (0 : ℝ)) (1, 2) (2, 4) none = Except.ok b2 ∧
      b2.left = (seedBox ((0 : ℝ), (0 : ℝ)) (2, 4) none).left ∧
      b2.right = (seedBox ((0 : ℝ), (0 : ℝ)) (2, 4) none).right) ∧
    (∃ b2, quadratic_bounding_box ((0 : ℝ), (0 : ℝ)) (1, 2) (2, 4) none = Except.ok b2 ∧
      b2.bottom = (seedBox ((0 : ℝ), (0 : ℝ)) (2, 4) none).bottom ∧
      b2.top = (seedBox ((0 : ℝ), (0 : ℝ)) (2, 4) none).top) :=
  ⟨(quadratic_degenerate_denominator_skips_extremum (0, 0) (1, 2) (2, 4) none).1
      (by norm_num),
    (quadratic_degenerate_denominator_skips_extremum (0, 0) (1, 2) (2, 4) none).2
      (by norm_num)⟩
